import Mathlib

set_option linter.unusedVariables false
set_option maxRecDepth 100000

/-!
Verification of the GenLayer contracts in this repository
(DisputeResolution, DAOProposalEvaluator, FriendlyGuestbook, AINotary,
DaoProposalEvaluator).

The embedding models:
* JSON values (`Json`) and a parser for the fragment of `json.loads`
  exercised by the contracts (objects, arrays, strings with the common
  escapes, integer numerals, booleans, null).  JSON numbers are modelled
  as integers: every schema-constrained numeric field in the repository
  is integral.  `json.dumps` followed by `json.loads` is the identity on
  these values, so stored serialized records are modelled by their
  parsed `Json` value.
* the GenLayer `TreeMap[str, str]` storage as an association list kept
  sorted by key (`TreeMap`), matching the ordered-map iteration order.
* SHA-256 (`sha256Hex`), exactly as `hashlib.sha256(text.encode("utf-8")).hexdigest()`.
* each contract method that the claims mention, with the agreed
  non-deterministic oracle response passed in as an explicit argument
  (the consensus layer hands the contract one agreed string); a raised
  Python exception is an `Except.error` and leaves the passed-in state
  unchanged, matching transaction-revert semantics.
-/

/-- JSON values as produced by `json.loads`.  Object fields keep their
textual order; numbers are modelled as integers (see module docstring). -/
inductive Json where
  | null
  | bool (b : Bool)
  | num (n : Int)
  | str (s : String)
  | arr (elems : List Json)
  | obj (fields : List (String × Json))

/-- The left-brace character, written via its code point. -/
def lbrace : Char := Char.ofNat 123

/-- The right-brace character, written via its code point. -/
def rbrace : Char := Char.ofNat 125

/-- The double-quote character. -/
def dquote : Char := Char.ofNat 34

/-- The backslash character. -/
def bslash : Char := Char.ofNat 92

/-- Python `in dict` membership for a JSON value: true iff it is an
object with the given key. -/
def Json.hasKey (j : Json) (k : String) : Bool :=
  match j with
  | .obj fields => fields.any (fun p => p.1 == k)
  | _ => false

/-- Python `dict[k]` lookup (last occurrence wins, as for duplicate keys
in `json.loads`); `none` when the key is absent or the value is not an
object. -/
def Json.getKey (j : Json) (k : String) : Option Json :=
  match j with
  | .obj fields => fields.foldl (fun acc p => if p.1 == k then some p.2 else acc) none
  | _ => none

/-- Python `dict[k] = v` assignment: overwrite in place when the key is
present, append otherwise.  Non-objects are returned unchanged (the
contracts only assign into objects whose required keys were checked). -/
def Json.setKey (j : Json) (k : String) (v : Json) : Json :=
  match j with
  | .obj fields =>
    if fields.any (fun p => p.1 == k) then
      .obj (fields.map (fun p => if p.1 == k then (p.1, v) else p))
    else
      .obj (fields ++ [(k, v)])
  | _ => j

/-- The four whitespace characters accepted between JSON tokens. -/
def jsonWs (c : Char) : Bool := c == ' ' || c == '\t' || c == '\n' || c == '\r'

/-- Skip leading JSON whitespace. -/
def skipWs : List Char → List Char
  | [] => []
  | c :: cs => if jsonWs c then skipWs cs else c :: cs

/-- Decode a single-character JSON string escape. -/
def escChar (e : Char) : Option Char :=
  if e = dquote then some dquote
  else if e = bslash then some bslash
  else if e = '/' then some '/'
  else if e = 'n' then some '\n'
  else if e = 't' then some '\t'
  else if e = 'r' then some '\r'
  else if e = 'b' then some (Char.ofNat 8)
  else if e = 'f' then some (Char.ofNat 12)
  else none

/-- Parse the body of a JSON string (the opening quote already
consumed), returning the decoded characters and the rest of the input. -/
def parseStringBody : List Char → Option (List Char × List Char)
  | [] => none
  | c :: rest =>
    if c = dquote then some ([], rest)
    else if c = bslash then
      match rest with
      | [] => none
      | e :: rest2 =>
        match escChar e with
        | none => none
        | some ec =>
          match parseStringBody rest2 with
          | none => none
          | some (cs, r) => some (ec :: cs, r)
    else
      match parseStringBody rest with
      | none => none
      | some (cs, r) => some (c :: cs, r)

/-- Split a maximal run of decimal digits off the front of the input. -/
def takeDigits : List Char → (List Char × List Char)
  | [] => ([], [])
  | c :: cs =>
    if c.isDigit then
      let (ds, r) := takeDigits cs
      (c :: ds, r)
    else ([], c :: cs)

/-- Decimal digits to a natural number. -/
def digitsToNat (ds : List Char) : Nat :=
  ds.foldl (fun a c => a * 10 + (c.toNat - 48)) 0

/-- Parse a JSON integer numeral (optional minus sign followed by
digits). -/
def parseNum (l : List Char) : Option (Json × List Char) :=
  match l with
  | [] => none
  | c :: rest =>
    if c = '-' then
      match takeDigits rest with
      | ([], _) => none
      | (ds, r) => some (.num (-(digitsToNat ds : Int)), r)
    else
      match takeDigits (c :: rest) with
      | ([], _) => none
      | (ds, r) => some (.num (digitsToNat ds : Int), r)

mutual

/-- Fuel-indexed recursive-descent parser for a JSON value. -/
def parseVal : Nat → List Char → Option (Json × List Char)
  | 0, _ => none
  | fuel + 1, l =>
    match skipWs l with
    | [] => none
    | c :: rest =>
      if c = lbrace then
        match skipWs rest with
        | [] => none
        | c2 :: r2 =>
          if c2 = rbrace then some (.obj [], r2)
          else
            match parseFields fuel (c2 :: r2) with
            | some (fs, r3) => some (.obj fs, r3)
            | none => none
      else if c = '[' then
        match skipWs rest with
        | [] => none
        | c2 :: r2 =>
          if c2 = ']' then some (.arr [], r2)
          else
            match parseItems fuel (c2 :: r2) with
            | some (xs, r3) => some (.arr xs, r3)
            | none => none
      else if c = dquote then
        match parseStringBody rest with
        | some (cs, r) => some (.str (String.mk cs), r)
        | none => none
      else if c = 't' then
        if ['r', 'u', 'e'].isPrefixOf rest then some (.bool true, rest.drop 3) else none
      else if c = 'f' then
        if ['a', 'l', 's', 'e'].isPrefixOf rest then some (.bool false, rest.drop 4) else none
      else if c = 'n' then
        if ['u', 'l', 'l'].isPrefixOf rest then some (.null, rest.drop 3) else none
      else
        parseNum (c :: rest)

/-- Parse a nonempty comma-separated list of `"key": value` members,
consuming the closing right brace. -/
def parseFields : Nat → List Char → Option (List (String × Json) × List Char)
  | 0, _ => none
  | fuel + 1, l =>
    match skipWs l with
    | [] => none
    | c :: rest =>
      if c = dquote then
        match parseStringBody rest with
        | none => none
        | some (kcs, r1) =>
          match skipWs r1 with
          | [] => none
          | c2 :: r2 =>
            if c2 = ':' then
              match parseVal fuel r2 with
              | none => none
              | some (v, r3) =>
                match skipWs r3 with
                | [] => none
                | c3 :: r4 =>
                  if c3 = ',' then
                    match parseFields fuel r4 with
                    | some (fs, r5) => some ((String.mk kcs, v) :: fs, r5)
                    | none => none
                  else if c3 = rbrace then some ([(String.mk kcs, v)], r4)
                  else none
            else none
      else none

/-- Parse a nonempty comma-separated list of array items, consuming the
closing right bracket. -/
def parseItems : Nat → List Char → Option (List Json × List Char)
  | 0, _ => none
  | fuel + 1, l =>
    match parseVal fuel l with
    | none => none
    | some (v, r1) =>
      match skipWs r1 with
      | [] => none
      | c :: r2 =>
        if c = ',' then
          match parseItems fuel r2 with
          | some (xs, r3) => some (v :: xs, r3)
          | none => none
        else if c = ']' then some ([v], r2)
        else none

end

/-- `json.loads` on the modelled fragment: parse one value and require
only whitespace to remain; any failure is `none` (a raised
`JSONDecodeError` in Python). -/
def Json.parse (s : String) : Option Json :=
  match parseVal (2 * s.length + 8) s.data with
  | some (j, rest) => if (skipWs rest).isEmpty then some j else none
  | none => none

/-- The GenLayer `TreeMap[str, str]` storage, modelled as an association
list sorted ascending by key; the stored JSON strings are modelled by
their parsed `Json` values (serialization round-trips). -/
abbrev TreeMap := List (String × Json)

/-- `TreeMap` lookup (`.get(k, None)` in the contracts). -/
def TreeMap.get : TreeMap → String → Option Json
  | [], _ => none
  | (k', v) :: rest, k => if k' = k then some v else TreeMap.get rest k

/-- `TreeMap` assignment `m[k] = v`: ordered insert, overwriting an
existing binding for the key. -/
def TreeMap.insert : TreeMap → String → Json → TreeMap
  | [], k, v => [(k, v)]
  | (k', v') :: rest, k, v =>
    if k < k' then (k, v) :: (k', v') :: rest
    else if k = k' then (k, v) :: rest
    else (k', v') :: TreeMap.insert rest k v

/-- `TreeMap.keys()`: the keys in storage order. -/
def TreeMap.keys (m : TreeMap) : List String := m.map Prod.fst

/-- The sortedness invariant maintained by `TreeMap.insert`: keys are
strictly increasing. -/
def TreeMap.SortedKeys (m : TreeMap) : Prop :=
  List.Pairwise (fun a b => a < b) (TreeMap.keys m)

example : Json.parse "  123 " = some (.num 123) := by rfl
example : Json.parse "not json" = none := by rfl
example : Json.parse "[1, -2]" = some (.arr [.num 1, .num (-2)]) := by rfl
example : Json.parse "\x7b\"a\": 1, \"b\": \"x\"\x7d"
    = some (.obj [("a", .num 1), ("b", .str "x")]) := by rfl
example : Json.parse "\x7b \x7d" = some (.obj []) := by rfl
example : Json.parse "\x7b\"a\": 1" = none := by rfl
example : Json.parse "true" = some (.bool true) := by rfl

/-! ### SHA-256, as `hashlib.sha256(text.encode("utf-8")).hexdigest()` -/

/-- `2 ^ 32`, the modulus for 32-bit words. -/
def M32 : Nat := 4294967296

/-- Right rotation of a 32-bit word. -/
def rotr32 (x n : Nat) : Nat := ((x >>> n) ||| (x <<< (32 - n))) % M32

/-- SHA-256 `Ch`. -/
def shaCh (x y z : Nat) : Nat := (x &&& y) ^^^ ((x ^^^ 4294967295) &&& z)

/-- SHA-256 `Maj`. -/
def shaMaj (x y z : Nat) : Nat := (x &&& y) ^^^ (x &&& z) ^^^ (y &&& z)

/-- SHA-256 big sigma 0. -/
def bigSigma0 (x : Nat) : Nat := rotr32 x 2 ^^^ rotr32 x 13 ^^^ rotr32 x 22

/-- SHA-256 big sigma 1. -/
def bigSigma1 (x : Nat) : Nat := rotr32 x 6 ^^^ rotr32 x 11 ^^^ rotr32 x 25

/-- SHA-256 small sigma 0. -/
def smallSigma0 (x : Nat) : Nat := rotr32 x 7 ^^^ rotr32 x 18 ^^^ (x >>> 3)

/-- SHA-256 small sigma 1. -/
def smallSigma1 (x : Nat) : Nat := rotr32 x 17 ^^^ rotr32 x 19 ^^^ (x >>> 10)

/-- The 64 SHA-256 round constants. -/
def shaK : List Nat :=
  [1116352408, 1899447441, 3049323471, 3921009573, 961987163,
   1508970993, 2453635748, 2870763221, 3624381080, 310598401,
   607225278, 1426881987, 1925078388, 2162078206, 2614888103,
   3248222580, 3835390401, 4022224774, 264347078, 604807628,
   770255983, 1249150122, 1555081692, 1996064986, 2554220882,
   2821834349, 2952996808, 3210313671, 3336571891, 3584528711,
   113926993, 338241895, 666307205, 773529912, 1294757372,
   1396182291, 1695183700, 1986661051, 2177026350, 2456956037,
   2730485921, 2820302411, 3259730800, 3345764771, 3516065817,
   3600352804, 4094571909, 275423344, 430227734, 506948616,
   659060556, 883997877, 958139571, 1322822218, 1537002063,
   1747873779, 1955562222, 2024104815, 2227730452, 2361852424,
   2428436474, 2756734187, 3204031479, 3329325298]

/-- The SHA-256 initial hash value. -/
def shaH0 : List Nat :=
  [1779033703, 3144134277, 1013904242, 2773480762, 1359893119,
   2600822924, 528734635, 1541459225]

/-- UTF-8 encoding of one code point, as `str.encode("utf-8")`. -/
def utf8Bytes (c : Char) : List Nat :=
  let n := c.toNat
  if n < 0x80 then [n]
  else if n < 0x800 then [0xC0 + n / 0x40, 0x80 + n % 0x40]
  else if n < 0x10000 then
    [0xE0 + n / 0x1000, 0x80 + (n / 0x40) % 0x40, 0x80 + n % 0x40]
  else
    [0xF0 + n / 0x40000, 0x80 + (n / 0x1000) % 0x40, 0x80 + (n / 0x40) % 0x40, 0x80 + n % 0x40]

/-- Big-endian 8-byte encoding of a natural number (the length field of
the SHA-256 padding). -/
def be64 (n : Nat) : List Nat :=
  [(n >>> 56) % 256, (n >>> 48) % 256, (n >>> 40) % 256, (n >>> 32) % 256,
   (n >>> 24) % 256, (n >>> 16) % 256, (n >>> 8) % 256, n % 256]

/-- SHA-256 message padding: append `0x80`, zero bytes to 56 mod 64,
then the bit length as 8 big-endian bytes. -/
def shaPad (msg : List Nat) : List Nat :=
  let l := msg.length
  let zeros := (64 + 55 - l % 64) % 64
  msg ++ [0x80] ++ List.replicate zeros 0 ++ be64 (8 * l)

/-- Group bytes into 64-byte blocks. -/
def chunk64 : List Nat → List (List Nat)
  | [] => []
  | b :: rest => ((b :: rest).take 64) :: chunk64 ((b :: rest).drop 64)
termination_by l => l.length
decreasing_by simp [List.length_drop]; omega

/-- Big-endian 4-byte groups to 32-bit words. -/
def bytesToWords : List Nat → List Nat
  | b0 :: b1 :: b2 :: b3 :: rest => (((b0 * 256 + b1) * 256 + b2) * 256 + b3) :: bytesToWords rest
  | _ => []

/-- Extend the 16 message words to the 64-entry message schedule. -/
def extendSchedule : Nat → Array Nat → Array Nat
  | 0, w => w
  | n + 1, w =>
    let t := w.size
    let v := (smallSigma1 (w.getD (t - 2) 0) + w.getD (t - 7) 0 +
              smallSigma0 (w.getD (t - 15) 0) + w.getD (t - 16) 0) % M32
    extendSchedule n (w.push v)

/-- The eight working variables of the SHA-256 compression function. -/
structure Sha8 where
  a : Nat
  b : Nat
  c : Nat
  d : Nat
  e : Nat
  f : Nat
  g : Nat
  h : Nat

/-- One SHA-256 round. -/
def shaRound (s : Sha8) (kw : Nat × Nat) : Sha8 :=
  let t1 := (s.h + bigSigma1 s.e + shaCh s.e s.f s.g + kw.1 + kw.2) % M32
  let t2 := (bigSigma0 s.a + shaMaj s.a s.b s.c) % M32
  ⟨(t1 + t2) % M32, s.a, s.b, s.c, (s.d + t1) % M32, s.e, s.f, s.g⟩

/-- The SHA-256 compression function on one 64-byte block. -/
def compressBlock (h : List Nat) (block : List Nat) : List Nat :=
  let w := extendSchedule 48 (List.toArray (bytesToWords block))
  match h with
  | [h0, h1, h2, h3, h4, h5, h6, h7] =>
    let s := (shaK.zip w.toList).foldl shaRound ⟨h0, h1, h2, h3, h4, h5, h6, h7⟩
    [(h0 + s.a) % M32, (h1 + s.b) % M32, (h2 + s.c) % M32, (h3 + s.d) % M32,
     (h4 + s.e) % M32, (h5 + s.f) % M32, (h6 + s.g) % M32, (h7 + s.h) % M32]
  | _ => h

/-- Hex digit for a value below 16 (lowercase). -/
def hexDigit (n : Nat) : Char :=
  if n < 10 then Char.ofNat (48 + n) else Char.ofNat (87 + n)

/-- Lowercase 8-digit hex rendering of a 32-bit word. -/
def word2hex (w : Nat) : String :=
  String.mk ((List.range 8).map fun i => hexDigit ((w >>> (28 - 4 * i)) % 16))

/-- `hashlib.sha256(s.encode("utf-8")).hexdigest()`. -/
def sha256Hex (s : String) : String :=
  let bytes := s.data.flatMap utf8Bytes
  let hs := (chunk64 (shaPad bytes)).foldl compressBlock shaH0
  String.join (hs.map word2hex)

/-! ### Python string primitives

Character-list implementations of the `str` methods the contracts use
(`strip`, `replace`, `startswith`, `endswith`, slicing, `upper`,
`lower`, `len`), with Python's semantics on the ASCII inputs involved. -/

/-- The whitespace characters removed by Python `str.strip()` (ASCII). -/
def pyWs (c : Char) : Bool :=
  c == ' ' || c == '\t' || c == '\n' || c == '\r' || c == Char.ofNat 11 || c == Char.ofNat 12

/-- Python `str.strip()`. -/
def pyStrip (s : String) : String :=
  String.mk (((s.data.dropWhile pyWs).reverse.dropWhile pyWs).reverse)

/-- Python `str.replace(p, r)` on character lists: replace every
non-overlapping occurrence, left to right.  The fuel argument only makes
the recursion structural; every step consumes at least one character, so
fuel equal to the input length is always enough. -/
def replaceList (p r : List Char) : Nat → List Char → List Char
  | _, [] => []
  | 0, l => l
  | fuel + 1, c :: rest =>
    if p.isPrefixOf (c :: rest) && ! p.isEmpty then
      r ++ replaceList p r fuel ((c :: rest).drop p.length)
    else
      c :: replaceList p r fuel rest

/-- Python `str.replace`. -/
def pyReplace (s pattern replacement : String) : String :=
  String.mk (replaceList pattern.data replacement.data s.data.length s.data)

/-- Python `str.startswith`. -/
def pyStartsWith (s p : String) : Bool := p.data.isPrefixOf s.data

/-- Python `str.endswith`. -/
def pyEndsWith (s p : String) : Bool := p.data.isSuffixOf s.data

/-- Python slicing `s[n:]`. -/
def pyDrop (s : String) (n : Nat) : String := String.mk (s.data.drop n)

/-- Python slicing `s[:-n]`. -/
def pyDropRight (s : String) (n : Nat) : String :=
  String.mk (s.data.take (s.data.length - n))

/-- Python `str.upper()` (ASCII). -/
def pyUpper (s : String) : String := String.mk (s.data.map Char.toUpper)

/-- Python `str.lower()` (ASCII). -/
def pyLower (s : String) : String := String.mk (s.data.map Char.toLower)

/-- Python `len` on a string (counts code points). -/
def pyLen (s : String) : Nat := s.data.length

/-! ### Shared validation helpers (translated from the contracts) -/

/-- `isinstance(x, (int, float)) and lo <= x <= hi` on a JSON field. -/
def scoreInRange (p : Json) (f : String) (lo hi : Int) : Bool :=
  match p.getKey f with
  | some (.num n) => decide (lo ≤ n) && decide (n ≤ hi)
  | _ => false

/-- `p[f] in allowed` for a string-valued enum field. -/
def strFieldIn (p : Json) (f : String) (allowed : List String) : Bool :=
  match p.getKey f with
  | some (.str s) => allowed.contains s
  | _ => false

/-- `isinstance(p[f], list)`. -/
def isArrField (p : Json) (f : String) : Bool :=
  match p.getKey f with
  | some (.arr _) => true
  | _ => false

/-- Outcome of one contract write call: the returned value or the raised
exception, the storage afterwards (a raised exception reverts, so the
state is the one passed in), and whether this call invoked the
non-deterministic oracle (`gl.nondet.exec_prompt`). -/
structure ContractOutcome (σ : Type) (α : Type) where
  result : Except String α
  state : σ
  oracleCalled : Bool

/-! ### DisputeResolution (src/COnflict-resolver.py, lines 23-303) -/

/-- Response cleanup in `nondet_arbitration`: strip, drop a leading
fenced-code marker, drop a trailing one, strip again. -/
def cleanArbitration (response : String) : String :=
  let cleaned := pyStrip response
  let cleaned := if pyStartsWith cleaned "```json" then pyDrop cleaned 7 else cleaned
  let cleaned := if pyStartsWith cleaned "```" then pyDrop cleaned 3 else cleaned
  let cleaned := if pyEndsWith cleaned "```" then pyDropRight cleaned 3 else cleaned
  pyStrip cleaned

/-- The required fields of the arbitration schema, in checking order. -/
def arbRequiredFields : List String :=
  ["winner", "confidence", "party_a_score", "party_b_score", "reasoning", "key_factors"]

/-- The structure checks of `nondet_arbitration`, in source order:
`some msg` is the raised exception, `none` means all checks passed. -/
def validateArbitration (p : Json) : Option String :=
  match arbRequiredFields.find? (fun f => ! p.hasKey f) with
  | some f => some ("Missing required field: " ++ f)
  | none =>
    if ! strFieldIn p "winner" ["party_a", "party_b", "split"] then
      some "Invalid winner: must be \x27party_a\x27, \x27party_b\x27, or \x27split\x27"
    else if ! strFieldIn p "confidence" ["high", "medium", "low", "split"] then
      some "Invalid confidence: must be \x27high\x27, \x27medium\x27, \x27low\x27, or \x27split\x27"
    else if ! scoreInRange p "party_a_score" 0 40 then
      some "Invalid party_a_score: must be 0-40"
    else if ! scoreInRange p "party_b_score" 0 40 then
      some "Invalid party_b_score: must be 0-40"
    else if ! isArrField p "key_factors" then
      some "key_factors must be a list"
    else none

/-- The `nondet_arbitration` closure run under `gl.eq_principle.strict_eq`,
applied to the agreed raw LLM response: clean, `json.loads` (raising on
parse failure), validate (raising on any violation), then add the
metadata fields.  There is no fallback record on this path: every
failure is a raised exception (`Except.error`). -/
def nondet_arbitration (dispute_id party_a_name party_b_name : String)
    (response : String) : Except String Json :=
  let cleaned := cleanArbitration response
  match Json.parse cleaned with
  | none => .error "json.loads: invalid JSON"
  | some parsed =>
    match validateArbitration parsed with
    | some e => .error e
    | none =>
      .ok ((((parsed.setKey "dispute_id" (.str dispute_id)).setKey
        "party_a_name" (.str party_a_name)).setKey
        "party_b_name" (.str party_b_name)).setKey
        "resolved_at" (.str "blockchain_timestamp"))

/-- The input-validation checks of `submit_dispute`, in source order. -/
def DisputeResolution.inputError (dispute_id party_a_name party_a_argument
    party_b_name party_b_argument : String) : Option String :=
  if dispute_id.data.isEmpty || pyLen (pyStrip dispute_id) == 0 then
    some "Dispute ID cannot be empty"
  else if party_a_name.data.isEmpty || pyLen (pyStrip party_a_name) == 0 then
    some "Party A name cannot be empty"
  else if party_b_name.data.isEmpty || pyLen (pyStrip party_b_name) == 0 then
    some "Party B name cannot be empty"
  else if party_a_argument.data.isEmpty || decide (pyLen (pyStrip party_a_argument) < 20) then
    some "Party A argument must be at least 20 characters"
  else if party_b_argument.data.isEmpty || decide (pyLen (pyStrip party_b_argument) < 20) then
    some "Party B argument must be at least 20 characters"
  else if pyLen party_a_argument > 10000 then
    some "Party A argument exceeds maximum length (10,000 characters)"
  else if pyLen party_b_argument > 10000 then
    some "Party B argument exceeds maximum length (10,000 characters)"
  else none

/-- The duplicate-id exception message of `submit_dispute`. -/
def duplicateDisputeMsg (dispute_id : String) : String :=
  "Dispute ID \x27" ++ dispute_id ++ "\x27 already exists. Use a unique identifier."

/-- `DisputeResolution.submit_dispute`: input validation, duplicate-id
check, then arbitration under strict consensus and storage of the
ruling.  `response` is the agreed raw LLM output; `context` only enters
the prompt text. -/
def DisputeResolution.submit_dispute (disputes : TreeMap)
    (dispute_id party_a_name party_a_argument party_b_name party_b_argument
     context response : String) : ContractOutcome TreeMap Json :=
  match DisputeResolution.inputError dispute_id party_a_name party_a_argument
      party_b_name party_b_argument with
  | some e => ⟨.error e, disputes, false⟩
  | none =>
    match TreeMap.get disputes dispute_id with
    | some _ => ⟨.error (duplicateDisputeMsg dispute_id), disputes, false⟩
    | none =>
      match nondet_arbitration dispute_id party_a_name party_b_name response with
      | .error e => ⟨.error e, disputes, true⟩
      | .ok ruling => ⟨.ok ruling, TreeMap.insert disputes dispute_id ruling, true⟩

/-- `DisputeResolution.get_all_dispute_ids`: iterate `disputes.keys()`
into a list. -/
def DisputeResolution.get_all_dispute_ids (disputes : TreeMap) : List String :=
  TreeMap.keys disputes

/-! ### DAOProposalEvaluator (src/COnflict-resolver.py, lines 372-636) -/

/-- Response cleanup in `nondet_evaluation`: remove every fenced-code
marker, then strip. -/
def cleanEvaluation (response : String) : String :=
  pyStrip (pyReplace (pyReplace response "```json" "") "```" "")

/-- The required fields of the evaluation schema, in checking order. -/
def evalRequiredFields : List String :=
  ["clarity", "feasibility", "risk", "alignment", "budget", "completeness",
   "final_score", "verdict", "summary"]

/-- The six dimension-score fields, in checking order. -/
def evalScoreFields : List String :=
  ["clarity", "feasibility", "risk", "alignment", "budget", "completeness"]

/-- The structure checks of `nondet_evaluation`, in source order.  Note:
no check relates `final_score` to `verdict`; the approve/revise/reject
thresholds appear only in the prompt text. -/
def validateEvaluation (p : Json) : Option String :=
  match evalRequiredFields.find? (fun f => ! p.hasKey f) with
  | some f => some ("Missing required field: " ++ f)
  | none =>
    match evalScoreFields.find? (fun f => ! scoreInRange p f 0 10) with
    | some f => some ("Invalid score for " ++ f ++ ": must be 0-10")
    | none =>
      if ! scoreInRange p "final_score" 0 100 then
        some "Invalid final_score: must be 0-100"
      else if ! strFieldIn p "verdict" ["approve", "revise", "reject"] then
        some "Invalid verdict: must be approve, revise, or reject"
      else none

/-- The `nondet_evaluation` closure run under strict consensus, applied
to the agreed raw LLM response: clean, `json.loads` (raising on parse
failure), validate (raising on any violation).  No fallback record
exists on this path. -/
def nondet_evaluation (response : String) : Except String Json :=
  match Json.parse (cleanEvaluation response) with
  | none => .error "json.loads: invalid JSON"
  | some parsed =>
    match validateEvaluation parsed with
    | some e => .error e
    | none => .ok parsed

/-- The input-validation checks of `DAOProposalEvaluator.submit_proposal`. -/
def DAOProposalEvaluator.inputError (proposal_text : String) : Option String :=
  if proposal_text.data.isEmpty || decide (pyLen (pyStrip proposal_text) < 20) then
    some "Proposal text must be at least 20 characters"
  else if pyLen proposal_text > 50000 then
    some "Proposal text exceeds maximum length (50,000 characters)"
  else none

/-- `DAOProposalEvaluator.submit_proposal`: validate the text, hash it,
return the cached evaluation on a hit (no oracle call), otherwise run
the consensus evaluation and store the result under the hash.  `budget`,
`timeline` and `dao_mission` only enter the prompt text and are elided;
`response` is the agreed raw LLM output. -/
def DAOProposalEvaluator.submit_proposal (evaluations : TreeMap)
    (proposal_text response : String) : ContractOutcome TreeMap Json :=
  match DAOProposalEvaluator.inputError proposal_text with
  | some e => ⟨.error e, evaluations, false⟩
  | none =>
    let proposal_hash := sha256Hex proposal_text
    match TreeMap.get evaluations proposal_hash with
    | some existing => ⟨.ok existing, evaluations, false⟩
    | none =>
      match nondet_evaluation response with
      | .error e => ⟨.error e, evaluations, true⟩
      | .ok r => ⟨.ok r, TreeMap.insert evaluations proposal_hash r, true⟩

/-! ### FriendlyGuestbook (src/COnflict-resolver.py, lines 672-729) -/

/-- The guestbook contract state. -/
structure GuestbookState where
  latest_message : String
  latest_sender : String

/-- The `check_vibes` closure applied to the agreed raw LLM response:
`result.strip().upper()`. -/
def check_vibes (response : String) : String := pyUpper (pyStrip response)

/-- `FriendlyGuestbook.sign_guestbook`: run the moderation check under
strict consensus; a "YES" verdict raises before any state write, so the
state is returned unchanged; otherwise both fields are updated.
`sender` stands for `str(gl.message.sender_address)`. -/
def FriendlyGuestbook.sign_guestbook (st : GuestbookState)
    (message sender response : String) : Except String Unit × GuestbookState :=
  let consensus_result := check_vibes response
  if consensus_result == "YES" then
    (.error "Vibe Check Failed: Your message was rejected.", st)
  else
    (.ok (), ⟨message, sender⟩)

/-! ### AINotary (src/AI-Verifier.py) -/

/-- Outcome of one notary call: the returned value, the counter
afterwards, and whether the call reached the web fetch
(`gl.nondet.web.render`) and the LLM (`gl.nondet.exec_prompt`). -/
structure NotaryOutcome (α : Type) where
  result : α
  total_notarizations : Nat
  webFetched : Bool
  llmCalled : Bool

/-- The social-media denylist of `notarize_event` / `notarize_event_full`. -/
def blockedDomains : List String :=
  ["x.com", "twitter.com", "facebook.com", "instagram.com", "linkedin.com"]

/-- Python substring containment `needle in hay`. -/
def strContains (hay needle : String) : Bool :=
  hay.data.tails.any (fun t => needle.data.isPrefixOf t)

/-- The blocking condition
`any(domain in source_url.lower() for domain in blocked)`.  In
particular it holds whenever the URL's host is one of the denylisted
domains, since a URL contains its host as a substring. -/
def isBlocked (source_url : String) : Bool :=
  blockedDomains.any (fun d => strContains (pyLower source_url) d)

/-- `result.get("status", "UNKNOWN")` on the LLM's JSON reply (the
contracts only use string-valued statuses). -/
def getStatus (r : Json) : String :=
  match r.getKey "status" with
  | some (.str s) => s
  | _ => "UNKNOWN"

/-- `AINotary.notarize_event`: increment the counter first, then refuse
denylisted URLs with an error string before any web or LLM access;
otherwise fetch, ask the LLM, and return the agreed status.
`web_content` and `llm_result` are the oracle inputs of the unblocked
path. -/
def AINotary.notarize_event (total_notarizations : Nat)
    (claim source_url : String) (web_content : String) (llm_result : Json) :
    NotaryOutcome String :=
  let total := (total_notarizations + 1) % 2 ^ 256
  if isBlocked source_url then
    ⟨"ERROR: Social media blocked - use notarize_without_url() instead", total, false, false⟩
  else
    ⟨getStatus llm_result, total, true, true⟩

/-- `AINotary.notarize_event_full`: as `notarize_event` but returning a
dict; the blocked branch returns the fixed error record. -/
def AINotary.notarize_event_full (total_notarizations : Nat)
    (claim source_url : String) (web_content : String) (llm_result : Json) :
    NotaryOutcome Json :=
  let total := (total_notarizations + 1) % 2 ^ 256
  if isBlocked source_url then
    ⟨.obj [("status", .str "ERROR"),
           ("reasoning", .str "Social media blocked. Use: CoinGecko, news sites, GitHub, or notarize_without_url()")],
     total, false, false⟩
  else
    ⟨llm_result, total, true, true⟩

/-! ### DaoProposalEvaluator (src/unnamed/part_000) -/

/-- The fixed fallback record of `_safe_parse_json`. -/
def fallbackRecord : Json :=
  .obj [("final_score", .num 0), ("verdict", .str "reject"),
        ("scores", .obj [("clarity", .num 0), ("feasibility", .num 0),
                         ("risk", .num 0), ("alignment", .num 0),
                         ("budget", .num 0), ("completeness", .num 0)]),
        ("summary", .str "Invalid or unparsable model output")]

/-- `_safe_parse_json`: `json.loads`, substituting the fixed fallback
record on any parse failure. -/
def safe_parse_json (raw : String) : Json :=
  match Json.parse raw with
  | some j => j
  | none => fallbackRecord

/-- The `nondet_eval` closure of part_000: on an oracle failure return
the literal `"\x7b\x7d"` string, otherwise remove fenced-code markers and
strip. -/
def nondet_eval (oracle : Except String String) : String :=
  match oracle with
  | .ok res => pyStrip (pyReplace (pyReplace res "```json" "") "```" "")
  | .error _ => "\x7b\x7d"

/-- Outcome of `DaoProposalEvaluator.submit_proposal` (this method never
raises: parse failures become the fallback record). -/
structure P000Outcome where
  result : Json
  state : TreeMap
  oracleCalled : Bool

/-- `DaoProposalEvaluator.submit_proposal` (part_000): hash the text; on
a cache hit return the stored record (re-parsing the stored
serialization, which round-trips); otherwise run the consensus
evaluation, parse with fallback, store under the hash and return. -/
def DaoProposalEvaluator.submit_proposal (evaluations : TreeMap)
    (proposal_text : String) (oracle : Except String String) : P000Outcome :=
  let proposal_hash := sha256Hex proposal_text
  match TreeMap.get evaluations proposal_hash with
  | some stored => ⟨stored, evaluations, false⟩
  | none =>
    let raw_result := nondet_eval oracle
    let parsed := safe_parse_json raw_result
    ⟨parsed, TreeMap.insert evaluations proposal_hash parsed, true⟩

/-! ### TreeMap lemmas -/

/-- `keys` on nil. -/
theorem TreeMap.keys_nil : TreeMap.keys [] = [] := rfl

/-- `keys` on cons. -/
theorem TreeMap.keys_cons (p : String × Json) (rest : TreeMap) :
    TreeMap.keys (p :: rest) = p.1 :: TreeMap.keys rest := rfl

/-- Looking up the key just inserted returns the inserted value. -/
theorem TreeMap.get_insert_self (m : TreeMap) (k : String) (v : Json) :
    TreeMap.get (TreeMap.insert m k v) k = some v := by
  induction m with
  | nil => simp [TreeMap.insert, TreeMap.get]
  | cons p rest ih =>
    obtain ⟨k', v'⟩ := p
    by_cases h1 : k < k'
    · simp [TreeMap.insert, TreeMap.get, h1]
    · by_cases h2 : k = k'
      · simp [TreeMap.insert, TreeMap.get, h1, h2]
      · have h3 : ¬ k' = k := fun h => h2 h.symm
        simp [TreeMap.insert, TreeMap.get, h1, h2, h3, ih]

/-- A key is listed by `keys` exactly when `get` finds it. -/
theorem TreeMap.mem_keys_iff_get (m : TreeMap) (k : String) :
    k ∈ TreeMap.keys m ↔ (TreeMap.get m k).isSome := by
  induction m with
  | nil => simp [TreeMap.keys_nil, TreeMap.get]
  | cons p rest ih =>
    obtain ⟨k', v'⟩ := p
    by_cases h : k' = k
    · subst h; simp [TreeMap.keys_cons, TreeMap.get]
    · have h2 : ¬ k = k' := fun hh => h hh.symm
      rw [TreeMap.keys_cons, List.mem_cons]
      simp only [TreeMap.get, if_neg h]
      exact or_iff_right h2 |>.trans ih

/-- Keys after an insert are among the old keys or the inserted key. -/
theorem TreeMap.mem_keys_insert (m : TreeMap) (k : String) (v : Json) (a : String) :
    a ∈ TreeMap.keys (TreeMap.insert m k v) → a ∈ TreeMap.keys m ∨ a = k := by
  induction m with
  | nil =>
    intro h
    right
    simpa [TreeMap.insert, TreeMap.keys_cons, TreeMap.keys_nil] using h
  | cons p rest ih =>
    obtain ⟨k', v'⟩ := p
    by_cases h1 : k < k'
    · simp only [TreeMap.insert, if_pos h1, TreeMap.keys_cons, List.mem_cons]
      rintro (rfl | h | h)
      · right; rfl
      · left; left; exact h
      · left; right; exact h
    · by_cases h2 : k = k'
      · subst h2
        simp only [TreeMap.insert, if_neg h1, if_pos rfl, TreeMap.keys_cons, List.mem_cons,
          if_true]
        rintro (rfl | h)
        · right; rfl
        · left; right; exact h
      · simp only [TreeMap.insert, if_neg h1, if_neg h2, TreeMap.keys_cons, List.mem_cons]
        rintro (rfl | h)
        · left; left; rfl
        · rcases ih h with h' | h'
          · left; right; exact h'
          · right; exact h'

/-- `insert` preserves the strictly-increasing-keys invariant. -/
theorem TreeMap.sortedKeys_insert (m : TreeMap) (k : String) (v : Json)
    (h : TreeMap.SortedKeys m) : TreeMap.SortedKeys (TreeMap.insert m k v) := by
  induction m with
  | nil => simp [TreeMap.insert, TreeMap.SortedKeys, TreeMap.keys_cons, TreeMap.keys_nil]
  | cons p rest ih =>
    obtain ⟨k', v'⟩ := p
    rw [TreeMap.SortedKeys, TreeMap.keys_cons, List.pairwise_cons] at h
    obtain ⟨hlt, hrest⟩ := h
    by_cases h1 : k < k'
    · rw [TreeMap.SortedKeys, TreeMap.insert, if_pos h1, TreeMap.keys_cons, TreeMap.keys_cons,
        List.pairwise_cons, List.pairwise_cons]
      refine ⟨?_, ?_, hrest⟩
      · intro a ha
        rcases List.mem_cons.1 ha with rfl | ha'
        · exact h1
        · exact lt_trans h1 (hlt a ha')
      · exact hlt
    · by_cases h2 : k = k'
      · subst h2
        rw [TreeMap.SortedKeys, TreeMap.insert, if_neg h1, if_pos rfl, TreeMap.keys_cons,
          List.pairwise_cons]
        exact ⟨hlt, hrest⟩
      · have hgt : k' < k := by
          rcases lt_trichotomy k k' with h | h | h
          · exact absurd h h1
          · exact absurd h h2
          · exact h
        rw [TreeMap.SortedKeys, TreeMap.insert, if_neg h1, if_neg h2, TreeMap.keys_cons,
          List.pairwise_cons]
        refine ⟨?_, ih hrest⟩
        intro a ha
        rcases TreeMap.mem_keys_insert rest k v a ha with h | h
        · exact hlt a h
        · subst h; exact hgt

/-! ### Validation extraction lemmas -/

/-- A passed numeric-range check exposes the numeric field and its bounds. -/
theorem scoreInRange_elim (p : Json) (f : String) (lo hi : Int)
    (h : scoreInRange p f lo hi = true) :
    ∃ n, p.getKey f = some (.num n) ∧ lo ≤ n ∧ n ≤ hi := by
  unfold scoreInRange at h
  cases hg : p.getKey f with
  | none => rw [hg] at h; simp at h
  | some j =>
    rw [hg] at h
    cases j with
    | num n =>
      simp only [Bool.and_eq_true, decide_eq_true_eq] at h
      exact ⟨n, rfl, h.1, h.2⟩
    | null => simp at h
    | bool b => simp at h
    | str s => simp at h
    | arr xs => simp at h
    | obj fs => simp at h

/-- A passed enum check exposes the string field and its membership. -/
theorem strFieldIn_elim (p : Json) (f : String) (allowed : List String)
    (h : strFieldIn p f allowed = true) :
    ∃ s, p.getKey f = some (.str s) ∧ s ∈ allowed := by
  unfold strFieldIn at h
  cases hg : p.getKey f with
  | none => rw [hg] at h; simp at h
  | some j =>
    rw [hg] at h
    cases j with
    | str s => exact ⟨s, rfl, List.mem_of_elem_eq_true h⟩
    | null => simp at h
    | bool b => simp at h
    | num n => simp at h
    | arr xs => simp at h
    | obj fs => simp at h

/-- If the evaluation checks all passed, the final-score and verdict
checks in particular passed. -/
theorem validateEvaluation_none (p : Json) (h : validateEvaluation p = none) :
    scoreInRange p "final_score" 0 100 = true ∧
    strFieldIn p "verdict" ["approve", "revise", "reject"] = true := by
  unfold validateEvaluation at h
  cases hf : List.find? (fun f => ! p.hasKey f) evalRequiredFields with
  | some f => rw [hf] at h; simp at h
  | none =>
    rw [hf] at h
    cases hg : List.find? (fun f => ! scoreInRange p f 0 10) evalScoreFields with
    | some f => rw [hg] at h; simp at h
    | none =>
      rw [hg] at h
      by_cases h1 : scoreInRange p "final_score" 0 100 = true
      · by_cases h2 : strFieldIn p "verdict" ["approve", "revise", "reject"] = true
        · exact ⟨h1, h2⟩
        · rw [Bool.not_eq_true] at h2; rw [h1, h2] at h; simp at h
      · rw [Bool.not_eq_true] at h1; rw [h1] at h; simp at h

/-- A successful `nondet_evaluation` run returns exactly a parsed
response that passed all its checks. -/
theorem nondet_evaluation_ok_validate (response : String) (r : Json)
    (h : nondet_evaluation response = Except.ok r) : validateEvaluation r = none := by
  unfold nondet_evaluation at h
  split at h
  · exact absurd h (by simp)
  · split at h
    · exact absurd h (by simp)
    · rename_i hval
      injection h with h
      rw [← h]
      exact hval

/-! ### Claims -/

/-- C1, counterexample.  The claim says a malformed generator output
always yields the schema's fallback record and never raises.  In
`DisputeResolution.nondet_arbitration` a non-JSON response instead
raises the `json.loads` exception (there is no fallback record for the
arbitration schema at all), so the claim is false at this input. -/
theorem C1_counterexample :
    nondet_arbitration "d1" "Alice" "Bob" "I am not JSON" =
      Except.error "json.loads: invalid JSON" := by rfl

/-- A parsable arbitration response violating the winner enum
(every required field present, "nobody" outside the enum). -/
def c1BadArbResp : String :=
  "\x7b\"winner\":\"nobody\",\"confidence\":\"high\",\"party_a_score\":10,\"party_b_score\":10,\"reasoning\":\"r\",\"key_factors\":[]\x7d"

/-- The parse of `c1BadArbResp`. -/
def c1BadArbParsed : Json :=
  .obj [("winner", .str "nobody"), ("confidence", .str "high"),
        ("party_a_score", .num 10), ("party_b_score", .num 10),
        ("reasoning", .str "r"), ("key_factors", .arr [])]

/-- The invalid-winner exception message of `nondet_arbitration`. -/
def invalidWinnerMsg : String :=
  "Invalid winner: must be \x27party_a\x27, \x27party_b\x27, or \x27split\x27"

/-- A parsable evaluation response with an out-of-range clarity score. -/
def c1BadEvalResp : String :=
  "\x7b\"clarity\":11,\"feasibility\":8,\"risk\":7,\"alignment\":9,\"budget\":8,\"completeness\":8,\"final_score\":82,\"verdict\":\"approve\",\"summary\":\"s\"\x7d"

/-- The parse of `c1BadEvalResp`. -/
def c1BadEvalParsed : Json :=
  .obj [("clarity", .num 11), ("feasibility", .num 8), ("risk", .num 7),
        ("alignment", .num 9), ("budget", .num 8), ("completeness", .num 8),
        ("final_score", .num 82), ("verdict", .str "approve"), ("summary", .str "s")]

/-- C1, amended.  Only `DaoProposalEvaluator._safe_parse_json`
(src/unnamed/part_000) substitutes the fixed fallback record, and it
does so for every unparsable output.  In `nondet_arbitration` and
`nondet_evaluation` every malformed response raises instead: an
unparsable response raises the `json.loads` exception, and a parsable
but constraint-violating response (missing required field, out-of-range
score, invalid enum — everything `validateArbitration` or
`validateEvaluation` rejects) raises that check's exception.  The
exception propagates outward: on a fresh key with valid inputs,
`submit_dispute` and `submit_proposal` return it with the store exactly
as it was (no record, partial or otherwise, is written). -/
theorem C1_fallback_only_in_part000 :
    (∀ raw, Json.parse raw = none → safe_parse_json raw = fallbackRecord) ∧
    (∀ dispute_id party_a_name party_b_name response,
      Json.parse (cleanArbitration response) = none →
      nondet_arbitration dispute_id party_a_name party_b_name response =
        Except.error "json.loads: invalid JSON") ∧
    (∀ dispute_id party_a_name party_b_name response parsed e,
      Json.parse (cleanArbitration response) = some parsed →
      validateArbitration parsed = some e →
      nondet_arbitration dispute_id party_a_name party_b_name response = Except.error e) ∧
    (∀ response, Json.parse (cleanEvaluation response) = none →
      nondet_evaluation response = Except.error "json.loads: invalid JSON") ∧
    (∀ response parsed e,
      Json.parse (cleanEvaluation response) = some parsed →
      validateEvaluation parsed = some e →
      nondet_evaluation response = Except.error e) ∧
    (∀ st dispute_id party_a_name party_a_argument party_b_name party_b_argument
       context response e,
      DisputeResolution.inputError dispute_id party_a_name party_a_argument
        party_b_name party_b_argument = none →
      TreeMap.get st dispute_id = none →
      nondet_arbitration dispute_id party_a_name party_b_name response = Except.error e →
      DisputeResolution.submit_dispute st dispute_id party_a_name party_a_argument
        party_b_name party_b_argument context response = ⟨.error e, st, true⟩) ∧
    (∀ st proposal_text response e,
      DAOProposalEvaluator.inputError proposal_text = none →
      TreeMap.get st (sha256Hex proposal_text) = none →
      nondet_evaluation response = Except.error e →
      DAOProposalEvaluator.submit_proposal st proposal_text response =
        ⟨.error e, st, true⟩) := by
  refine ⟨?_, ?_, ?_, ?_, ?_, ?_, ?_⟩
  · intro raw h
    simp [safe_parse_json, h]
  · intro did pan pbn resp h
    simp [nondet_arbitration, h]
  · intro did pan pbn resp parsed e hp hval
    simp [nondet_arbitration, hp, hval]
  · intro resp h
    simp [nondet_evaluation, h]
  · intro resp parsed e hp hval
    simp [nondet_evaluation, hp, hval]
  · intro st did pan paArg pbn pbArg ctx resp e hin hget hnd
    simp [DisputeResolution.submit_dispute, hin, hget, hnd]
  · intro st proposal_text resp e hin hget hnd
    simp [DAOProposalEvaluator.submit_proposal, hin, hget, hnd]

/-- C1, witness: concrete runs of every case of the amended theorem —
fallback in part_000, the two raising paths of each validator, and the
propagation of a validation exception through each submit method on an
untouched store. -/
theorem C1_witness :
    (Json.parse "oops" = none ∧ safe_parse_json "oops" = fallbackRecord) ∧
    (Json.parse (cleanArbitration "oops") = none ∧
      nondet_arbitration "d" "A" "B" "oops" = Except.error "json.loads: invalid JSON") ∧
    (Json.parse (cleanArbitration c1BadArbResp) = some c1BadArbParsed ∧
      validateArbitration c1BadArbParsed = some invalidWinnerMsg ∧
      nondet_arbitration "d" "A" "B" c1BadArbResp = Except.error invalidWinnerMsg) ∧
    (Json.parse (cleanEvaluation "oops") = none ∧
      nondet_evaluation "oops" = Except.error "json.loads: invalid JSON") ∧
    (Json.parse (cleanEvaluation c1BadEvalResp) = some c1BadEvalParsed ∧
      validateEvaluation c1BadEvalParsed = some "Invalid score for clarity: must be 0-10" ∧
      nondet_evaluation c1BadEvalResp =
        Except.error "Invalid score for clarity: must be 0-10") ∧
    (DisputeResolution.inputError "d9" "A" "Alice has paid in full already." "B"
        "Bob never delivered the site at all." = none ∧
      TreeMap.get [] "d9" = none ∧
      DisputeResolution.submit_dispute [] "d9" "A" "Alice has paid in full already." "B"
        "Bob never delivered the site at all." "" c1BadArbResp =
        ⟨.error invalidWinnerMsg, [], true⟩) ∧
    (DAOProposalEvaluator.inputError "fund the audit of the treasury" = none ∧
      TreeMap.get [] (sha256Hex "fund the audit of the treasury") = none ∧
      DAOProposalEvaluator.submit_proposal [] "fund the audit of the treasury" c1BadEvalResp =
        ⟨.error "Invalid score for clarity: must be 0-10", [], true⟩) :=
  ⟨⟨by rfl, C1_fallback_only_in_part000.1 "oops" (by rfl)⟩,
   ⟨by rfl, C1_fallback_only_in_part000.2.1 "d" "A" "B" "oops" (by rfl)⟩,
   ⟨by rfl, by rfl,
    C1_fallback_only_in_part000.2.2.1 "d" "A" "B" c1BadArbResp c1BadArbParsed
      invalidWinnerMsg (by rfl) (by rfl)⟩,
   ⟨by rfl, C1_fallback_only_in_part000.2.2.2.1 "oops" (by rfl)⟩,
   ⟨by rfl, by rfl,
    C1_fallback_only_in_part000.2.2.2.2.1 c1BadEvalResp c1BadEvalParsed
      "Invalid score for clarity: must be 0-10" (by rfl) (by rfl)⟩,
   ⟨by rfl, by rfl,
    C1_fallback_only_in_part000.2.2.2.2.2.1 [] "d9" "A" "Alice has paid in full already."
      "B" "Bob never delivered the site at all." "" c1BadArbResp invalidWinnerMsg
      (by rfl) (by rfl) (by rfl)⟩,
   ⟨by rfl, by rfl,
    C1_fallback_only_in_part000.2.2.2.2.2.2 [] "fund the audit of the treasury"
      c1BadEvalResp "Invalid score for clarity: must be 0-10"
      (by rfl) (by rfl) (by rfl)⟩⟩

/-- C3.  Submitting under an already-used `dispute_id` (with otherwise
valid inputs) raises the duplicate-id exception: the oracle is never
invoked, the store is returned unchanged, and the originally stored
record is still there, unchanged. -/
theorem C3_duplicate_id_rejected (st : TreeMap)
    (dispute_id party_a_name party_a_argument party_b_name party_b_argument
     context response : String) (r : Json)
    (hval : DisputeResolution.inputError dispute_id party_a_name party_a_argument
      party_b_name party_b_argument = none)
    (hdup : TreeMap.get st dispute_id = some r) :
    DisputeResolution.submit_dispute st dispute_id party_a_name party_a_argument
        party_b_name party_b_argument context response =
      ⟨.error (duplicateDisputeMsg dispute_id), st, false⟩ ∧
    TreeMap.get st dispute_id = some r := by
  constructor
  · unfold DisputeResolution.submit_dispute
    rw [hval, hdup]
  · exact hdup

/-- C3, witness: a second submission under the used id "d1". -/
theorem C3_witness :
    DisputeResolution.inputError "d1" "Alice" "Alice paid and has the receipts here."
      "Bob" "Bob disputes the scope of the agreement." = none ∧
    TreeMap.get [("d1", Json.str "first ruling")] "d1" = some (Json.str "first ruling") ∧
    (DisputeResolution.submit_dispute [("d1", Json.str "first ruling")] "d1" "Alice"
        "Alice paid and has the receipts here." "Bob"
        "Bob disputes the scope of the agreement." "" "resp" =
      ⟨.error (duplicateDisputeMsg "d1"), [("d1", Json.str "first ruling")], false⟩ ∧
     TreeMap.get [("d1", Json.str "first ruling")] "d1" = some (Json.str "first ruling")) :=
  ⟨by rfl, by rfl,
   C3_duplicate_id_rejected [("d1", Json.str "first ruling")] "d1" "Alice"
     "Alice paid and has the receipts here." "Bob"
     "Bob disputes the scope of the agreement." "" "resp" (Json.str "first ruling")
     (by rfl) (by rfl)⟩

/-- C4.  Every input-validation failure of `submit_dispute` raises
before the duplicate check and before any oracle invocation, leaving the
store exactly as it was. -/
theorem C4_validation_fails_fast (st : TreeMap)
    (dispute_id party_a_name party_a_argument party_b_name party_b_argument
     context response e : String)
    (h : DisputeResolution.inputError dispute_id party_a_name party_a_argument
      party_b_name party_b_argument = some e) :
    DisputeResolution.submit_dispute st dispute_id party_a_name party_a_argument
        party_b_name party_b_argument context response = ⟨.error e, st, false⟩ := by
  unfold DisputeResolution.submit_dispute
  rw [h]

/-- C4, witness: scenario C, a 15-character `party_a_argument` is
rejected with the minimum-20 error on an untouched store. -/
theorem C4_witness :
    DisputeResolution.inputError "dc" "Alice" "fifteen chars!!" "Bob"
      "Bob has a full twenty character argument." =
      some "Party A argument must be at least 20 characters" ∧
    DisputeResolution.submit_dispute [] "dc" "Alice" "fifteen chars!!" "Bob"
        "Bob has a full twenty character argument." "" "resp" =
      ⟨.error "Party A argument must be at least 20 characters", [], false⟩ :=
  ⟨by rfl,
   C4_validation_fails_fast [] "dc" "Alice" "fifteen chars!!" "Bob"
     "Bob has a full twenty character argument." "" "resp"
     "Party A argument must be at least 20 characters" (by rfl)⟩

/-- C5.  When the agreed moderation verdict is the veto "YES",
`sign_guestbook` raises before either assignment, so `latest_message`
and `latest_sender` keep their previous values. -/
theorem C5_veto_leaves_state_unchanged (st : GuestbookState)
    (message sender response : String)
    (h : check_vibes response = "YES") :
    FriendlyGuestbook.sign_guestbook st message sender response =
      (Except.error "Vibe Check Failed: Your message was rejected.", st) := by
  simp [FriendlyGuestbook.sign_guestbook, h]

/-- C5, witness: a vetoed message leaves the deployment-time state. -/
theorem C5_witness :
    check_vibes " yes\n" = "YES" ∧
    FriendlyGuestbook.sign_guestbook ⟨"Welcome to GenLayer!", "System"⟩
        "spam message" "0xabc" " yes\n" =
      (Except.error "Vibe Check Failed: Your message was rejected.",
       ⟨"Welcome to GenLayer!", "System"⟩) :=
  ⟨by rfl,
   C5_veto_leaves_state_unchanged ⟨"Welcome to GenLayer!", "System"⟩
     "spam message" "0xabc" " yes\n" (by rfl)⟩

/-- C7.  Whenever a denylisted domain occurs in the lowercased URL — in
particular whenever the URL's host is one of the denylisted social-media
domains, since a URL contains its host — both `notarize_event` and
`notarize_event_full` return their policy-error value with no web fetch
(`gl.nondet.web.render`) and no LLM invocation. -/
theorem C7_denylist_blocks_before_network (total_notarizations : Nat)
    (claim source_url web_content : String) (llm_result : Json)
    (h : isBlocked source_url = true) :
    AINotary.notarize_event total_notarizations claim source_url web_content llm_result =
      ⟨"ERROR: Social media blocked - use notarize_without_url() instead",
       (total_notarizations + 1) % 2 ^ 256, false, false⟩ ∧
    AINotary.notarize_event_full total_notarizations claim source_url web_content llm_result =
      ⟨.obj [("status", .str "ERROR"),
             ("reasoning", .str "Social media blocked. Use: CoinGecko, news sites, GitHub, or notarize_without_url()")],
       (total_notarizations + 1) % 2 ^ 256, false, false⟩ := by
  constructor
  · simp [AINotary.notarize_event, h]
  · simp [AINotary.notarize_event_full, h]

/-- C7, witness: a twitter.com URL is refused without any network access. -/
theorem C7_witness :
    isBlocked "https://twitter.com/someuser/status/1" = true ∧
    AINotary.notarize_event 0 "a claim" "https://twitter.com/someuser/status/1" "" Json.null =
      ⟨"ERROR: Social media blocked - use notarize_without_url() instead",
       (0 + 1) % 2 ^ 256, false, false⟩ ∧
    AINotary.notarize_event_full 0 "a claim" "https://twitter.com/someuser/status/1" "" Json.null =
      ⟨.obj [("status", .str "ERROR"),
             ("reasoning", .str "Social media blocked. Use: CoinGecko, news sites, GitHub, or notarize_without_url()")],
       (0 + 1) % 2 ^ 256, false, false⟩ :=
  ⟨by rfl,
   (C7_denylist_blocks_before_network 0 "a claim" "https://twitter.com/someuser/status/1"
     "" Json.null (by rfl)).1,
   (C7_denylist_blocks_before_network 0 "a claim" "https://twitter.com/someuser/status/1"
     "" Json.null (by rfl)).2⟩

/-- C8.  `get_all_dispute_ids` lists exactly the stored keys, in
strictly ascending order, and is a function of the store alone (equal
stores give identical sequences). -/
theorem C8_listing_sorted_complete (st : TreeMap) (hs : TreeMap.SortedKeys st) :
    (∀ k, k ∈ DisputeResolution.get_all_dispute_ids st ↔ (TreeMap.get st k).isSome) ∧
    List.Pairwise (fun a b => a < b) (DisputeResolution.get_all_dispute_ids st) ∧
    (∀ st', st' = st →
      DisputeResolution.get_all_dispute_ids st' = DisputeResolution.get_all_dispute_ids st) := by
  refine ⟨fun k => TreeMap.mem_keys_iff_get st k, hs, fun st' h => by rw [h]⟩

/-- C8, witness at a two-entry store. -/
theorem C8_witness :
    TreeMap.SortedKeys [("a", Json.null), ("b", Json.null)] ∧
    ((∀ k, k ∈ DisputeResolution.get_all_dispute_ids [("a", Json.null), ("b", Json.null)] ↔
        (TreeMap.get [("a", Json.null), ("b", Json.null)] k).isSome) ∧
     List.Pairwise (fun a b => a < b)
       (DisputeResolution.get_all_dispute_ids [("a", Json.null), ("b", Json.null)]) ∧
     (∀ st', st' = [("a", Json.null), ("b", Json.null)] →
       DisputeResolution.get_all_dispute_ids st' =
         DisputeResolution.get_all_dispute_ids [("a", Json.null), ("b", Json.null)])) := by
  have hs : TreeMap.SortedKeys [("a", Json.null), ("b", Json.null)] := by
    rw [TreeMap.SortedKeys, TreeMap.keys_cons, TreeMap.keys_cons, TreeMap.keys_nil]
    refine List.pairwise_cons.2 ⟨?_, List.pairwise_singleton _ _⟩
    intro b hb
    rcases List.mem_singleton.1 hb with rfl
    rw [String.lt_iff_toList_lt]
    decide
  exact ⟨hs, C8_listing_sorted_complete [("a", Json.null), ("b", Json.null)] hs⟩

/-- C9.  On a denylisted URL both notarization methods still increment
`total_notarizations` by exactly one (the increment precedes the
denylist check) before returning the error value, and touch nothing
else: the counter counts attempted calls.  The hypothesis
`total_notarizations + 1 < 2 ^ 256` is the no-overflow condition of the
`u256` counter. -/
theorem C9_counter_counts_attempts (total_notarizations : Nat)
    (claim source_url web_content : String) (llm_result : Json)
    (hb : isBlocked source_url = true)
    (hlt : total_notarizations + 1 < 2 ^ 256) :
    (AINotary.notarize_event total_notarizations claim source_url web_content
        llm_result).total_notarizations = total_notarizations + 1 ∧
    (AINotary.notarize_event total_notarizations claim source_url web_content
        llm_result).result = "ERROR: Social media blocked - use notarize_without_url() instead" ∧
    (AINotary.notarize_event total_notarizations claim source_url web_content
        llm_result).webFetched = false ∧
    (AINotary.notarize_event total_notarizations claim source_url web_content
        llm_result).llmCalled = false ∧
    (AINotary.notarize_event_full total_notarizations claim source_url web_content
        llm_result).total_notarizations = total_notarizations + 1 ∧
    (AINotary.notarize_event_full total_notarizations claim source_url web_content
        llm_result).webFetched = false ∧
    (AINotary.notarize_event_full total_notarizations claim source_url web_content
        llm_result).llmCalled = false := by
  have hmod : (total_notarizations + 1) % 2 ^ 256 = total_notarizations + 1 :=
    Nat.mod_eq_of_lt hlt
  refine ⟨?_, ?_, ?_, ?_, ?_, ?_, ?_⟩ <;>
    simp [AINotary.notarize_event, AINotary.notarize_event_full, hb, hmod] <;>
    exact lt_of_lt_of_eq hlt (by norm_num)

/-- C9, witness: a facebook.com URL at counter value 5. -/
theorem C9_witness :
    isBlocked "http://facebook.com/page" = true ∧ 5 + 1 < 2 ^ 256 ∧
    ((AINotary.notarize_event 5 "c" "http://facebook.com/page" "" Json.null).total_notarizations
        = 5 + 1 ∧
     (AINotary.notarize_event 5 "c" "http://facebook.com/page" "" Json.null).result =
        "ERROR: Social media blocked - use notarize_without_url() instead" ∧
     (AINotary.notarize_event 5 "c" "http://facebook.com/page" "" Json.null).webFetched = false ∧
     (AINotary.notarize_event 5 "c" "http://facebook.com/page" "" Json.null).llmCalled = false ∧
     (AINotary.notarize_event_full 5 "c" "http://facebook.com/page" "" Json.null).total_notarizations
        = 5 + 1 ∧
     (AINotary.notarize_event_full 5 "c" "http://facebook.com/page" "" Json.null).webFetched = false ∧
     (AINotary.notarize_event_full 5 "c" "http://facebook.com/page" "" Json.null).llmCalled = false) :=
  ⟨by rfl, by norm_num,
   C9_counter_counts_attempts 5 "c" "http://facebook.com/page" "" Json.null (by rfl) (by norm_num)⟩

/-- C2.  If a first `submit_proposal` call ran the oracle and succeeded
(so its text was fresh), a second call with byte-identical text — under
any oracle response, since the oracle is not consulted — returns the
same record, leaves the store unchanged, and does not invoke the
oracle. -/
theorem C2_content_key_idempotent (st st' : TreeMap)
    (proposal_text response response' : String) (r : Json)
    (h : DAOProposalEvaluator.submit_proposal st proposal_text response = ⟨.ok r, st', true⟩) :
    DAOProposalEvaluator.submit_proposal st' proposal_text response' = ⟨.ok r, st', false⟩ := by
  cases hin : DAOProposalEvaluator.inputError proposal_text with
  | some e =>
    simp only [DAOProposalEvaluator.submit_proposal, hin] at h
    exact absurd h (by simp)
  | none =>
    cases hget : TreeMap.get st (sha256Hex proposal_text) with
    | some existing =>
      simp only [DAOProposalEvaluator.submit_proposal, hin, hget] at h
      exact absurd h (by simp)
    | none =>
      cases hnd : nondet_evaluation response with
      | error e =>
        simp only [DAOProposalEvaluator.submit_proposal, hin, hget, hnd] at h
        exact absurd h (by simp)
      | ok r2 =>
        simp only [DAOProposalEvaluator.submit_proposal, hin, hget, hnd] at h
        injection h with h1 h2 h3
        injection h1 with h1
        subst h1
        subst h2
        simp only [DAOProposalEvaluator.submit_proposal, hin, TreeMap.get_insert_self]

/-- The proposal text of the concrete DAO-evaluation runs. -/
def c6Text : String := "We propose to allocate 50000 tokens to develop a mobile app."

/-- A consensus-agreed LLM response whose `final_score` is 82 but whose
`verdict` is "reject": it passes every check of `nondet_evaluation`. -/
def c6Resp : String :=
  "\x7b\"clarity\":9,\"feasibility\":8,\"risk\":7,\"alignment\":9,\"budget\":8,\"completeness\":8,\"final_score\":82,\"verdict\":\"reject\",\"summary\":\"ok\"\x7d"

/-- The parsed record of `c6Resp`. -/
def c6Rec : Json :=
  .obj [("clarity", .num 9), ("feasibility", .num 8), ("risk", .num 7),
        ("alignment", .num 9), ("budget", .num 8), ("completeness", .num 8),
        ("final_score", .num 82), ("verdict", .str "reject"), ("summary", .str "ok")]

/-- C2, witness: first call evaluates and stores, second call is a pure
cache hit returning the same record. -/
theorem C2_witness :
    DAOProposalEvaluator.submit_proposal [] c6Text c6Resp =
      ⟨.ok c6Rec, TreeMap.insert [] (sha256Hex c6Text) c6Rec, true⟩ ∧
    DAOProposalEvaluator.submit_proposal (TreeMap.insert [] (sha256Hex c6Text) c6Rec)
        c6Text "a different oracle response" =
      ⟨.ok c6Rec, TreeMap.insert [] (sha256Hex c6Text) c6Rec, false⟩ :=
  ⟨by rfl,
   C2_content_key_idempotent [] (TreeMap.insert [] (sha256Hex c6Text) c6Rec)
     c6Text c6Resp "a different oracle response" c6Rec (by rfl)⟩

/-- C6, counterexample.  The claim says a stored record with
`final_score` at least 70 has verdict "approve".  `nondet_evaluation`
checks only the enum membership and the numeric ranges, never the
threshold relation, so this agreed response with `final_score = 82` and
`verdict = "reject"` is accepted and stored as-is. -/
theorem C6_counterexample :
    DAOProposalEvaluator.submit_proposal [] c6Text c6Resp =
      ⟨.ok c6Rec, TreeMap.insert [] (sha256Hex c6Text) c6Rec, true⟩ ∧
    TreeMap.get (TreeMap.insert [] (sha256Hex c6Text) c6Rec) (sha256Hex c6Text) = some c6Rec ∧
    c6Rec.getKey "final_score" = some (.num 82) ∧ (70 : Int) ≤ 82 ∧
    c6Rec.getKey "verdict" = some (.str "reject") ∧
    ¬ c6Rec.getKey "verdict" = some (.str "approve") := by
  refine ⟨by rfl, TreeMap.get_insert_self _ _ _, by rfl, by decide, by rfl, ?_⟩
  intro hcontra
  have h1 : c6Rec.getKey "verdict" = some (Json.str "reject") := by rfl
  rw [h1] at hcontra
  injection hcontra with h2
  injection h2 with h3
  exact absurd h3 (by decide)

/-- C6, amended.  What the validation actually guarantees of every
record accepted and stored by a fresh (oracle-invoking) successful
`submit_proposal` call: the verdict is one of approve/revise/reject and
`final_score` lies in 0..100; the 70/40 thresholds are prompt guidance
only and are not enforced against the stored record. -/
theorem C6_stored_record_schema (st st' : TreeMap) (proposal_text response : String) (r : Json)
    (h : DAOProposalEvaluator.submit_proposal st proposal_text response = ⟨.ok r, st', true⟩) :
    (∃ v, r.getKey "verdict" = some (.str v) ∧ v ∈ ["approve", "revise", "reject"]) ∧
    (∃ n, r.getKey "final_score" = some (.num n) ∧ 0 ≤ n ∧ n ≤ 100) ∧
    TreeMap.get st' (sha256Hex proposal_text) = some r := by
  cases hin : DAOProposalEvaluator.inputError proposal_text with
  | some e =>
    simp only [DAOProposalEvaluator.submit_proposal, hin] at h
    exact absurd h (by simp)
  | none =>
    cases hget : TreeMap.get st (sha256Hex proposal_text) with
    | some existing =>
      simp only [DAOProposalEvaluator.submit_proposal, hin, hget] at h
      exact absurd h (by simp)
    | none =>
      cases hnd : nondet_evaluation response with
      | error e =>
        simp only [DAOProposalEvaluator.submit_proposal, hin, hget, hnd] at h
        exact absurd h (by simp)
      | ok r2 =>
        simp only [DAOProposalEvaluator.submit_proposal, hin, hget, hnd] at h
        injection h with h1 h2 h3
        injection h1 with h1
        subst h1
        subst h2
        have hv : validateEvaluation r2 = none := nondet_evaluation_ok_validate response r2 hnd
        obtain ⟨hfs, hvd⟩ := validateEvaluation_none r2 hv
        obtain ⟨n, hn, hlo, hhi⟩ := scoreInRange_elim r2 "final_score" 0 100 hfs
        obtain ⟨v, hvk, hvm⟩ := strFieldIn_elim r2 "verdict" _ hvd
        exact ⟨⟨v, hvk, hvm⟩, ⟨n, hn, hlo, hhi⟩, TreeMap.get_insert_self st _ r2⟩

/-- C6, witness for the amended theorem at the concrete run. -/
theorem C6_witness :
    DAOProposalEvaluator.submit_proposal [] c6Text c6Resp =
      ⟨.ok c6Rec, TreeMap.insert [] (sha256Hex c6Text) c6Rec, true⟩ ∧
    ((∃ v, c6Rec.getKey "verdict" = some (.str v) ∧ v ∈ ["approve", "revise", "reject"]) ∧
     (∃ n, c6Rec.getKey "final_score" = some (.num n) ∧ 0 ≤ n ∧ n ≤ 100) ∧
     TreeMap.get (TreeMap.insert [] (sha256Hex c6Text) c6Rec) (sha256Hex c6Text) = some c6Rec) :=
  ⟨by rfl,
   C6_stored_record_schema [] (TreeMap.insert [] (sha256Hex c6Text) c6Rec)
     c6Text c6Resp c6Rec (by rfl)⟩

/-- C10.  In part_000, when the agreed consensus output of a fresh
proposal fails JSON parsing, `submit_proposal` stores the fixed fallback
record under the proposal's hash and returns it; afterwards every
submission of byte-identical text returns that stored fallback with the
store unchanged and without invoking the oracle — the failed evaluation
is permanent. -/
theorem C10_failed_parse_permanent (st : TreeMap) (proposal_text raw : String)
    (hfresh : TreeMap.get st (sha256Hex proposal_text) = none)
    (hbad : Json.parse (nondet_eval (Except.ok raw)) = none) :
    DaoProposalEvaluator.submit_proposal st proposal_text (Except.ok raw) =
      ⟨fallbackRecord, TreeMap.insert st (sha256Hex proposal_text) fallbackRecord, true⟩ ∧
    (∀ oracle, DaoProposalEvaluator.submit_proposal
        (TreeMap.insert st (sha256Hex proposal_text) fallbackRecord) proposal_text oracle =
      ⟨fallbackRecord, TreeMap.insert st (sha256Hex proposal_text) fallbackRecord, false⟩) := by
  constructor
  · simp only [DaoProposalEvaluator.submit_proposal, hfresh]
    simp [safe_parse_json, hbad]
  · intro oracle
    simp only [DaoProposalEvaluator.submit_proposal, TreeMap.get_insert_self]

/-- C10, witness: an unparsable agreed output at a fresh store. -/
theorem C10_witness :
    TreeMap.get [] (sha256Hex "fund the community treasury audit") = none ∧
    Json.parse (nondet_eval (Except.ok "not a json")) = none ∧
    (DaoProposalEvaluator.submit_proposal [] "fund the community treasury audit"
        (Except.ok "not a json") =
      ⟨fallbackRecord,
       TreeMap.insert [] (sha256Hex "fund the community treasury audit") fallbackRecord, true⟩ ∧
     (∀ oracle, DaoProposalEvaluator.submit_proposal
        (TreeMap.insert [] (sha256Hex "fund the community treasury audit") fallbackRecord)
        "fund the community treasury audit" oracle =
      ⟨fallbackRecord,
       TreeMap.insert [] (sha256Hex "fund the community treasury audit") fallbackRecord, false⟩)) :=
  ⟨by rfl, by rfl,
   C10_failed_parse_permanent [] "fund the community treasury audit" "not a json"
     (by rfl) (by rfl)⟩

/-! ### Invariant support: every reachable store is sorted -/

/-- The empty deployment-time store satisfies the key invariant. -/
theorem sortedKeys_empty : TreeMap.SortedKeys [] := by
  simp [TreeMap.SortedKeys, TreeMap.keys_nil]

/-- `submit_dispute` preserves the sorted-keys invariant, so the
hypothesis of the key-listing theorem holds of every reachable store. -/
theorem submit_dispute_preserves_sortedKeys (st : TreeMap)
    (dispute_id party_a_name party_a_argument party_b_name party_b_argument
     context response : String)
    (hs : TreeMap.SortedKeys st) :
    TreeMap.SortedKeys (DisputeResolution.submit_dispute st dispute_id party_a_name
      party_a_argument party_b_name party_b_argument context response).state := by
  unfold DisputeResolution.submit_dispute
  split
  · exact hs
  · split
    · exact hs
    · split
      · exact hs
      · exact TreeMap.sortedKeys_insert st dispute_id _ hs

/-- `submit_proposal` preserves the sorted-keys invariant as well. -/
theorem submit_proposal_preserves_sortedKeys (st : TreeMap)
    (proposal_text response : String)
    (hs : TreeMap.SortedKeys st) :
    TreeMap.SortedKeys (DAOProposalEvaluator.submit_proposal st proposal_text response).state := by
  simp only [DAOProposalEvaluator.submit_proposal]
  split
  · exact hs
  · split
    · exact hs
    · split
      · exact hs
      · exact TreeMap.sortedKeys_insert st _ _ hs
